import Mathlib

/-!
Verification of the ScholarAI multi-agent research orchestrator
(`advanced/submissions/team-members/art-turner`).

The Python pipeline is shallowly embedded: the four agents' LLM calls are
modelled as oracles supplying already-parsed JSON data (or the marker that the
returned text was not valid JSON), and the orchestration logic
(`orchestrator.py`), the synthesizer's local report assembly
(`synthesizer_agent.py`), the critic's review assembly (`critic_agent.py`) and
the researcher's findings parsing (`researcher_agent.py`) are translated
function by function.  Python floats used for progress reporting are modelled
as exact rationals; Python dicts with string keys are modelled as association
lists.
-/

/-- Modelled from the spec: `models/report.py` is absent from the sources (only
re-exported by `models/__init__.py`).  A `Source` has `title`, `url` (identity
key), `snippet`, an optional `relevanceScore` and an optional synthesis-stage
`whyItMatters` (empty when absent). -/
structure Source where
  title : String
  url : String
  snippet : String
  score : Option ℚ := none
  why_matters : String := ""
deriving DecidableEq

/-- Modelled from the spec: `models/report.py` is absent.  A `KeyFinding` is a
statement with a list of citation URLs. -/
structure KeyFinding where
  finding : String
  citations : List String
deriving DecidableEq

/-- Modelled from the spec: `models/report.py` is absent.  A `Subtopic` is a
name, a description and suggested search queries. -/
structure Subtopic where
  name : String
  description : String
  search_queries : List String
deriving DecidableEq

/-- Modelled from the spec: `models/report.py` is absent.  `SubtopicFindings`
is one researcher's structured output; `metadata` is a string-keyed mapping
(modelled as an association list). -/
structure SubtopicFindings where
  subtopic : String
  summary : String
  key_insights : List KeyFinding
  sources : List Source
  researcher_notes : String
  metadata : List (String × String)
deriving DecidableEq

/-- Modelled from the spec: `models/report.py` is absent.  A single issue
raised by the critic. -/
structure CriticIssue where
  category : String
  severity : String
  description : String
  location : String
  suggestion : String
deriving DecidableEq

/-- Modelled from the spec: `models/report.py` is absent.  The critic's review;
`iteration` is the 1-based position in the revision loop, set by the
orchestrator (0 before it is set). -/
structure CriticReview where
  decision : String
  overall_score : Int
  issues_found : List CriticIssue
  strengths : List String
  revision_instructions : String
  iteration : Int := 0
deriving DecidableEq

/-- Modelled from the spec: `models/report.py` is absent.  The terminal report
artifact; `revision_count` starts at 0 and `critic_review` is absent until the
orchestrator attaches one. -/
structure MultiAgentReport where
  topic : String
  subtopics : List String
  executive_summary : String
  subtopic_findings : List SubtopicFindings
  overall_insights : List KeyFinding
  consensus_points : List String
  conflicts_and_gaps : String
  all_sources : List Source
  top_sources : List Source
  revision_count : Nat := 0
  critic_review : Option CriticReview := none
  metadata : List (String × String) := []
deriving DecidableEq

/-! ### Agent LLM outputs

Each LLM call either returns text that is valid JSON — modelled as the parsed
payload — or text that is not valid JSON.  Fields that the Python code reads
with `dict.get` and a default are modelled as `Option` fields. -/

/-- Result of running `json.loads` on an agent's response text: either the
parsed payload or the marker that parsing would raise `json.JSONDecodeError`. -/
inductive LLMOutput (α : Type) where
  | valid (data : α)
  | invalid
deriving DecidableEq

/-- One subtopic entry of the splitter's JSON output (`topic_splitter.py`,
`analyze_topic`). -/
structure SubtopicData where
  name : Option String := none
  description : Option String := none
  search_queries : Option (List String) := none
deriving DecidableEq

/-- The splitter's JSON output (`topic_splitter.py`). -/
structure SplitData where
  main_topic_analysis : Option String := none
  subtopics : Option (List SubtopicData) := none
deriving DecidableEq

/-- One insight entry of a researcher's or the synthesizer's JSON output. -/
structure InsightData where
  finding : Option String := none
  citations : Option (List String) := none
deriving DecidableEq

/-- One source entry of the synthesizer's `top_sources` JSON output. -/
structure SourceData where
  title : Option String := none
  url : Option String := none
  snippet : Option String := none
  score : Option ℚ := none
  why_matters : Option String := none
deriving DecidableEq

/-- The synthesizer's JSON output (`synthesizer_agent.py`, used both by
`synthesize` and `revise`). -/
structure SynthesisData where
  executive_summary : Option String := none
  overall_insights : Option (List InsightData) := none
  consensus_points : Option (List String) := none
  conflicts_and_gaps : Option String := none
  top_sources : Option (List SourceData) := none
deriving DecidableEq

/-- The researcher's final JSON output embedded in its free-form analysis
(`researcher_agent.py`, `_parse_findings`). -/
structure FindingsData where
  summary : Option String := none
  key_insights : Option (List InsightData) := none
  researcher_notes : Option String := none
deriving DecidableEq

/-- One issue entry of the critic's JSON output (`critic_agent.py`). -/
structure CriticIssueData where
  category : Option String := none
  severity : Option String := none
  description : Option String := none
  location : Option String := none
  suggestion : Option String := none
deriving DecidableEq

/-- The critic's JSON output (`critic_agent.py`, `review`). -/
structure CriticData where
  decision : Option String := none
  overall_score : Option Int := none
  issues_found : Option (List CriticIssueData) := none
  strengths : Option (List String) := none
  revision_instructions : Option String := none
deriving DecidableEq

/-- A raw search-result dict as produced by `tools/web_search.py` (keys
`title`, `url`, `snippet`, `score` are always present). -/
structure RawSource where
  title : String
  url : String
  snippet : String
  score : ℚ
deriving DecidableEq

/-! ### Synthesizer (`synthesizer_agent.py`) -/

/-- The loop of `_build_report` lines 222-228: walk the collected sources,
keeping a source only when its `url` was not seen before (`seen_urls` is the
Python set, modelled as the list of urls added so far). -/
def dedupByUrlGo : List String → List Source → List Source
  | _, [] => []
  | seen, s :: rest =>
    if seen.contains s.url then dedupByUrlGo seen rest
    else s :: dedupByUrlGo (s.url :: seen) rest

/-- `_build_report` lines 218-220: concatenation of every researcher's
sources, in findings order. -/
def allSourcesOf (findings : List SubtopicFindings) : List Source :=
  (findings.map (fun f => f.sources)).flatten

/-- The URL-deduplication stated by the spec: keep each first-encountered
source and drop every later source with the same `url`.  This is the
specification-side definition that `dedupByUrlGo` is compared against. -/
def dedupFirstSpec : List Source → List Source
  | [] => []
  | s :: rest => s :: dedupFirstSpec (rest.filter (fun t => !(t.url == s.url)))
termination_by l => l.length
decreasing_by
  simp only [List.length_cons]
  exact Nat.lt_succ_of_le (List.length_filter_le _ _)

/-- `SynthesizerAgent._build_report`: assemble a `MultiAgentReport` from the
ordered findings and the parsed synthesis JSON (`result_data`).  The
`datetime.utcnow()` timestamp is passed as a parameter. -/
def buildReport (model timestamp : String) (topic : String)
    (subtopic_findings : List SubtopicFindings) (d : SynthesisData) :
    MultiAgentReport :=
  let overall_insights := (d.overall_insights.getD []).map (fun i =>
    { finding := i.finding.getD "", citations := i.citations.getD [] })
  let top_sources := ((d.top_sources.getD []).take 5).map (fun s =>
    { title := s.title.getD "", url := s.url.getD "", snippet := s.snippet.getD "",
      score := s.score, why_matters := s.why_matters.getD "" })
  let unique_sources := dedupByUrlGo [] (allSourcesOf subtopic_findings)
  { topic := topic
    subtopics := subtopic_findings.map (fun f => f.subtopic)
    executive_summary := d.executive_summary.getD ""
    subtopic_findings := subtopic_findings
    overall_insights := overall_insights
    consensus_points := d.consensus_points.getD []
    conflicts_and_gaps := d.conflicts_and_gaps.getD ""
    all_sources := unique_sources
    top_sources := top_sources
    metadata := [("timestamp", timestamp), ("model", model),
      ("num_researchers", toString subtopic_findings.length),
      ("total_sources", toString unique_sources.length)] }

/-! ### Lemmas about URL deduplication (claim C4) -/

lemma dedupByUrlGo_eq_spec (l : List Source) :
    ∀ seen, dedupByUrlGo seen l =
      dedupFirstSpec (l.filter (fun s => !(seen.contains s.url))) := by
  induction l with
  | nil => intro seen; simp [dedupByUrlGo, dedupFirstSpec]
  | cons s rest ih =>
    intro seen
    by_cases hc : seen.contains s.url
    · simp only [dedupByUrlGo, hc, if_true, List.filter_cons, Bool.not_true,
        Bool.false_eq_true, if_neg, reduceIte]
      exact ih seen
    · have hc' : seen.contains s.url = false := by
        simpa using hc
      simp only [dedupByUrlGo, hc', Bool.false_eq_true, if_false,
        List.filter_cons, Bool.not_false, if_pos, reduceIte]
      rw [dedupFirstSpec, ih (s.url :: seen), List.filter_filter]
      congr 2
      apply List.filter_congr
      intro t _
      simp only [List.contains_cons, Bool.not_or, Bool.and_comm, beq_eq_decide]

lemma dedupFirstSpec_subset : ∀ (l : List Source) (x : Source),
    x ∈ dedupFirstSpec l → x ∈ l := by
  intro l
  induction l using dedupFirstSpec.induct with
  | case1 => intro x hx; rw [dedupFirstSpec] at hx; exact absurd hx (List.not_mem_nil x)
  | case2 s rest ih =>
    intro x hx
    rw [dedupFirstSpec] at hx
    rcases List.mem_cons.mp hx with h | h
    · exact h ▸ List.mem_cons_self _ _
    · exact List.mem_cons_of_mem _ (List.mem_of_mem_filter (ih x h))

lemma dedupFirstSpec_pairwise : ∀ l : List Source,
    (dedupFirstSpec l).Pairwise (fun a b => a.url ≠ b.url) := by
  intro l
  induction l using dedupFirstSpec.induct with
  | case1 => simp [dedupFirstSpec]
  | case2 s rest ih =>
    rw [dedupFirstSpec]
    refine List.Pairwise.cons ?_ ih
    intro y hy
    have hmem := dedupFirstSpec_subset _ _ hy
    have := List.of_mem_filter hmem
    intro hurl
    simp [← hurl] at this

/-- C4: the synthesizer's `all_sources` equals the URL-deduplicated union of
every source across the ordered findings, keeping the first-encountered source
per url in encounter order, and no two of its entries share a url. -/
theorem c4_all_sources_dedup (model timestamp topic : String)
    (findings : List SubtopicFindings) (d : SynthesisData) :
    (buildReport model timestamp topic findings d).all_sources =
      dedupFirstSpec (allSourcesOf findings) ∧
    ((buildReport model timestamp topic findings d).all_sources).Pairwise
      (fun a b => a.url ≠ b.url) := by
  have hall : (buildReport model timestamp topic findings d).all_sources =
      dedupFirstSpec (allSourcesOf findings) := by
    show dedupByUrlGo [] (allSourcesOf findings) = _
    rw [dedupByUrlGo_eq_spec]
    simp
  exact ⟨hall, hall ▸ dedupFirstSpec_pairwise _⟩

/-! ### Topic splitter (`topic_splitter.py`) -/

/-- `analyze_topic` subtopic parsing: each subtopic dict is read with
default-filled `dict.get` accesses. -/
def parseSubtopics (d : SplitData) : List Subtopic :=
  (d.subtopics.getD []).map (fun st =>
    { name := st.name.getD "", description := st.description.getD "",
      search_queries := st.search_queries.getD [] })

/-- `TopicSplitterAgent.analyze_topic` after the LLM call: a bare `json.loads`
(no try/except) followed by default-filled parsing, so text that is not valid
JSON raises out of the splitter. -/
def analyzeTopic (out : LLMOutput SplitData) :
    Except String (String × List Subtopic) :=
  match out with
  | .invalid => .error "json.JSONDecodeError"
  | .valid d => .ok (d.main_topic_analysis.getD "", parseSubtopics d)

/-! ### Synthesizer entry points (`synthesizer_agent.py`) -/

/-- `SynthesizerAgent.synthesize` lines 149-153: a bare `json.loads` on the
LLM response followed by `_build_report`. -/
def synthesize (model timestamp topic : String)
    (subtopic_findings : List SubtopicFindings) (out : LLMOutput SynthesisData) :
    Except String MultiAgentReport :=
  match out with
  | .invalid => .error "json.JSONDecodeError"
  | .valid d => .ok (buildReport model timestamp topic subtopic_findings d)

/-- `SynthesizerAgent.revise` lines 315-328 after a successful `json.loads`:
rebuild the report via `_build_report` from the input report's topic and
findings, then set `revision_count` to the input's count plus one. -/
def reviseWith (model timestamp : String) (d : SynthesisData)
    (report : MultiAgentReport) : MultiAgentReport :=
  let revised := buildReport model timestamp report.topic report.subtopic_findings d
  { revised with revision_count := report.revision_count + 1 }

/-- `SynthesizerAgent.revise` including the bare `json.loads` of its LLM
response. -/
def reviseE (model timestamp : String) (out : LLMOutput SynthesisData)
    (report : MultiAgentReport) : Except String MultiAgentReport :=
  match out with
  | .invalid => .error "json.JSONDecodeError"
  | .valid d => .ok (reviseWith model timestamp d report)

/-! ### Critic (`critic_agent.py`) -/

/-- `CriticAgent.review` lines 148-166: build a `CriticReview` from the parsed
JSON with default-filled `dict.get` accesses. -/
def buildCriticReview (d : CriticData) : CriticReview :=
  { decision := d.decision.getD "APPROVED"
    overall_score := d.overall_score.getD 7
    issues_found := (d.issues_found.getD []).map (fun i =>
      { category := i.category.getD "completeness"
        severity := i.severity.getD "moderate"
        description := i.description.getD ""
        location := i.location.getD ""
        suggestion := i.suggestion.getD "" })
    strengths := d.strengths.getD []
    revision_instructions := d.revision_instructions.getD "" }

/-- `CriticAgent.review` lines 145-166 including the bare `json.loads` of its
LLM response. -/
def review (out : LLMOutput CriticData) : Except String CriticReview :=
  match out with
  | .invalid => .error "json.JSONDecodeError"
  | .valid d => .ok (buildCriticReview d)

/-! ### Researcher (`researcher_agent.py`) -/

/-- `ResearcherAgent._parse_findings`: the JSON-extraction try/except is
modelled by `parsed`; extraction failure or invalid JSON yields the empty
dict.  Never raises: always returns a well-formed `SubtopicFindings`. -/
def parseFindings (subtopic : Subtopic) (sources : List RawSource)
    (analysis : String) (queries_used : List String)
    (agent_id model timestamp : String) (parsed : LLMOutput FindingsData) :
    SubtopicFindings :=
  let result_data : FindingsData :=
    match parsed with
    | .invalid => {}
    | .valid d => d
  let key_insights := (result_data.key_insights.getD []).map (fun i =>
    { finding := i.finding.getD "", citations := i.citations.getD [] })
  let key_insights :=
    if key_insights.isEmpty && !sources.isEmpty then
      [{ finding := result_data.summary.getD ("Research findings on " ++ subtopic.name),
         citations := (sources.take 3).map (fun s => s.url) }]
    else key_insights
  let source_objects := sources.map (fun s =>
    ({ title := s.title, url := s.url, snippet := s.snippet,
       score := some s.score } : Source))
  { subtopic := subtopic.name
    summary := result_data.summary.getD
      (if analysis = "" then "Research on " ++ subtopic.name else analysis.take 500)
    key_insights := key_insights
    sources := source_objects
    researcher_notes := result_data.researcher_notes.getD ""
    metadata := [("timestamp", timestamp), ("agent_id", agent_id),
      ("model", model), ("queries_used", toString queries_used),
      ("num_sources", toString sources.length)] }

/-! ### Orchestrator (`orchestrator.py`) -/

/-- Outcome of one `research_subtopic` task inside the pool: either the
findings it returned, or the exception it raised rendered as a string. -/
inductive ResearchOutcome where
  | ok (f : SubtopicFindings)
  | err (e : String)
deriving DecidableEq

/-- `_research_in_parallel` lines 278-286: the error-placeholder findings built
when a researcher task raised `e`. -/
def errorFinding (subtopic : Subtopic) (e : String) : SubtopicFindings :=
  { subtopic := subtopic.name
    summary := "Research failed: " ++ e
    key_insights := []
    sources := []
    researcher_notes := "Error during research: " ++ e
    metadata := [("error", e)] }

/-- Configuration held by `MultiAgentOrchestrator.__init__` (fields the
orchestration logic reads; `max_revisions` is a Python int, so `Int`). -/
structure OrchestratorConfig where
  model : String := "gpt-4-turbo-preview"
  max_workers : Nat := 3
  enable_critic : Bool := true
  max_revisions : Int := 2
deriving DecidableEq

/-- The external behaviors a run interacts with, as oracles: the splitter's
parsed LLM output, each index's researcher outcome, the synthesis call's
parsed output, the critic's parsed output per loop iteration, the revision
call's parsed output per loop iteration, and the `datetime.utcnow()`
timestamp. -/
structure RunStubs where
  split : LLMOutput SplitData
  research : Nat → ResearchOutcome
  synth : LLMOutput SynthesisData
  critic : Int → MultiAgentReport → LLMOutput CriticData
  reviseOut : Int → LLMOutput SynthesisData
  timestamp : String

/-- The findings `_research_in_parallel` ends up holding for original index
`i`: the researcher's result, or the error placeholder if that task raised. -/
def collectFinding (subtopics : List Subtopic) (research : Nat → ResearchOutcome)
    (i : Nat) : SubtopicFindings :=
  match research i with
  | .ok f => f
  | .err e =>
    errorFinding (subtopics.getD i { name := "", description := "", search_queries := [] }) e

/-- The `as_completed` collection loop of `_research_in_parallel` lines
262-288: `order` lists the original indices in completion order; `completed`
counts resolved tasks; progress is reported only for successful tasks, using
the post-increment count.  Returns the index-tagged findings in completion
order, the emitted progress events, and the final count. -/
def researchLoop (subtopics : List Subtopic) (research : Nat → ResearchOutcome) :
    List Nat → Nat → List (Nat × SubtopicFindings) × List (ℚ × String) × Nat
  | [], completed => ([], [], completed)
  | i :: rest, completed =>
    let subtopic := subtopics.getD i { name := "", description := "", search_queries := [] }
    match research i with
    | .ok result =>
      let completed := completed + 1
      let event : ℚ × String :=
        (1/5 + 3/5 * (completed : ℚ) / (subtopics.length : ℚ),
         "Completed research on: " ++ subtopic.name)
      let next := researchLoop subtopics research rest completed
      ((i, result) :: next.1, event :: next.2.1, next.2.2)
    | .err e =>
      let next := researchLoop subtopics research rest (completed + 1)
      ((i, errorFinding subtopic e) :: next.1, next.2.1, next.2.2)

/-- `findings.sort(key=lambda x: x[0])` line 291: a stable ascending sort by
the original index (insertion sort is stable; the keys are distinct here). -/
def sortByIndex (tagged : List (Nat × SubtopicFindings)) :
    List (Nat × SubtopicFindings) :=
  List.insertionSort (fun a b => a.1 ≤ b.1) tagged

/-- `MultiAgentOrchestrator._research_in_parallel`: collect results in
completion order, sort by original index, drop the tags.  Returns the ordered
findings and the progress events. -/
def researchInParallel (subtopics : List Subtopic)
    (research : Nat → ResearchOutcome) (order : List Nat) :
    List SubtopicFindings × List (ℚ × String) :=
  let collected := researchLoop subtopics research order 0
  ((sortByIndex collected.1).map (fun x => x.2), collected.2.1)

/-- The `while iteration < self.max_revisions` loop of `_run_critic_loop`
lines 175-221.  `fuel` is `(maxR - iteration).toNat`, the number of remaining
loop entries; the Python `iteration` counter is threaded explicitly.  Returns
the loop's result (`error` when a bare `json.loads` inside `review` or
`revise` raised), its progress events, the number of critic invocations and
the number of revise invocations. -/
def criticLoopGo (model timestamp : String) (maxR : Int)
    (critic : Int → MultiAgentReport → LLMOutput CriticData)
    (reviseOut : Int → LLMOutput SynthesisData) :
    Nat → Int → MultiAgentReport →
      Except String MultiAgentReport × List (ℚ × String) × Nat × Nat
  | 0, _, current => (.ok current, [], 0, 0)
  | fuel + 1, iteration, current =>
    let it := iteration + 1
    let reviewEvent : ℚ × String :=
      (4/5 + 3/20 * (it : ℚ) / ((maxR : ℚ) + 1),
       "Critic reviewing report (iteration " ++ toString it ++ ")...")
    match critic it current with
    | .invalid => (.error "json.JSONDecodeError", [reviewEvent], 1, 0)
    | .valid d =>
      let rv := { buildCriticReview d with iteration := it }
      if rv.decision = "APPROVED" then
        (.ok { current with critic_review := some rv },
         [reviewEvent, (19/20, "Report approved by critic (score: " ++
            toString rv.overall_score ++ "/10)")], 1, 0)
      else if rv.decision = "REVISION_NEEDED" then
        if maxR ≤ it then
          (.ok { current with critic_review := some rv },
           [reviewEvent, (19/20, "Max revisions reached. Final score: " ++
              toString rv.overall_score ++ "/10")], 1, 0)
        else
          let reviseEvent : ℚ × String :=
            (4/5 + 3/20 * (it : ℚ) / ((maxR : ℚ) + 1),
             "Revising report based on critic feedback...")
          match reviseOut it with
          | .invalid => (.error "json.JSONDecodeError", [reviewEvent, reviseEvent], 1, 1)
          | .valid sd =>
            let revised := reviseWith model timestamp sd current
            let next := criticLoopGo model timestamp maxR critic reviseOut fuel it revised
            (next.1, reviewEvent :: reviseEvent :: next.2.1,
             next.2.2.1 + 1, next.2.2.2 + 1)
      else
        let next := criticLoopGo model timestamp maxR critic reviseOut fuel it current
        (next.1, reviewEvent :: next.2.1, next.2.2.1 + 1, next.2.2.2)

/-- `MultiAgentOrchestrator._run_critic_loop`: run the loop from
`iteration = 0`. -/
def runCriticLoop (model timestamp : String) (maxR : Int)
    (critic : Int → MultiAgentReport → LLMOutput CriticData)
    (reviseOut : Int → LLMOutput SynthesisData) (report : MultiAgentReport) :
    Except String MultiAgentReport × List (ℚ × String) × Nat × Nat :=
  criticLoopGo model timestamp maxR critic reviseOut maxR.toNat 0 report

deriving instance DecidableEq for Except

/-- Everything observable about one call of `run` / `run_sequential`: the
returned report or the exception that escaped, the progress events passed to
the callback in order, and how many researcher / synthesize / critic-review /
revise invocations happened. -/
structure RunTrace where
  outcome : Except String MultiAgentReport
  events : List (ℚ × String)
  researchCalls : Nat
  synthCalls : Nat
  criticCalls : Nat
  reviseCalls : Nat
deriving DecidableEq

/-- `MultiAgentOrchestrator.run` lines 90-150, with `order` the completion
order of the parallel researcher tasks. -/
def run (cfg : OrchestratorConfig) (stubs : RunStubs) (order : List Nat)
    (topic style tone : String) : RunTrace :=
  let ev0 : ℚ × String := (1/10, "Analyzing topic and generating subtopics...")
  match analyzeTopic stubs.split with
  | .error e =>
    { outcome := .error e, events := [ev0], researchCalls := 0,
      synthCalls := 0, criticCalls := 0, reviseCalls := 0 }
  | .ok (_, subtopics) =>
    if subtopics.isEmpty then
      { outcome := .error "Topic splitter failed to generate subtopics",
        events := [ev0], researchCalls := 0, synthCalls := 0,
        criticCalls := 0, reviseCalls := 0 }
    else
      let ev1 : ℚ × String :=
        (1/5, "Generated " ++ toString subtopics.length ++
          " subtopics. Starting research...")
      let res := researchInParallel subtopics stubs.research order
      let ev2 : ℚ × String := (7/10, "Synthesizing findings into final report...")
      match stubs.synth with
      | .invalid =>
        { outcome := .error "json.JSONDecodeError",
          events := ev0 :: ev1 :: res.2 ++ [ev2],
          researchCalls := order.length, synthCalls := 1,
          criticCalls := 0, reviseCalls := 0 }
      | .valid d =>
        let report := buildReport cfg.model stubs.timestamp topic res.1 d
        if cfg.enable_critic then
          let loop := runCriticLoop cfg.model stubs.timestamp cfg.max_revisions
            stubs.critic stubs.reviseOut report
          match loop.1 with
          | .ok final =>
            { outcome := .ok final,
              events := ev0 :: ev1 :: res.2 ++ [ev2] ++ loop.2.1 ++
                [(1, "Research complete!")],
              researchCalls := order.length, synthCalls := 1,
              criticCalls := loop.2.2.1, reviseCalls := loop.2.2.2 }
          | .error e =>
            { outcome := .error e,
              events := ev0 :: ev1 :: res.2 ++ [ev2] ++ loop.2.1,
              researchCalls := order.length, synthCalls := 1,
              criticCalls := loop.2.2.1, reviseCalls := loop.2.2.2 }
        else
          { outcome := .ok report,
            events := ev0 :: ev1 :: res.2 ++ [ev2, (1, "Research complete!")],
            researchCalls := order.length, synthCalls := 1,
            criticCalls := 0, reviseCalls := 0 }

/-- The sequential research loop of `run_sequential` lines 323-335: one
progress event per subtopic (pre-increment index over the original count),
then the researcher; an exception inside a researcher propagates (there is no
try/except here). -/
def seqGo (research : Nat → ResearchOutcome) (n : Nat) :
    List (Nat × Subtopic) →
      Except String (List SubtopicFindings) × List (ℚ × String) × Nat
  | [] => (.ok [], [], 0)
  | (i, st) :: rest =>
    let event : ℚ × String :=
      (1/5 + 3/5 * (i : ℚ) / (n : ℚ), "Researching: " ++ st.name)
    match research i with
    | .err e => (.error e, [event], 1)
    | .ok f =>
      let next := seqGo research n rest
      (match next.1 with
       | .ok fs => .ok (f :: fs)
       | .error e => .error e,
       event :: next.2.1, next.2.2 + 1)

/-- `MultiAgentOrchestrator.run_sequential` lines 294-348: no empty-subtopics
check, serial research, synthesis, no critic loop. -/
def runSequential (cfg : OrchestratorConfig) (stubs : RunStubs)
    (topic style tone : String) : RunTrace :=
  let ev0 : ℚ × String := (1/10, "Analyzing topic...")
  match analyzeTopic stubs.split with
  | .error e =>
    { outcome := .error e, events := [ev0], researchCalls := 0,
      synthCalls := 0, criticCalls := 0, reviseCalls := 0 }
  | .ok (_, subtopics) =>
    let res := seqGo stubs.research subtopics.length subtopics.enum
    match res.1 with
    | .error e =>
      { outcome := .error e, events := ev0 :: res.2.1,
        researchCalls := res.2.2, synthCalls := 0, criticCalls := 0,
        reviseCalls := 0 }
    | .ok findings =>
      let ev1 : ℚ × String := (4/5, "Synthesizing...")
      match stubs.synth with
      | .invalid =>
        { outcome := .error "json.JSONDecodeError",
          events := ev0 :: res.2.1 ++ [ev1], researchCalls := res.2.2,
          synthCalls := 1, criticCalls := 0, reviseCalls := 0 }
      | .valid d =>
        { outcome := .ok (buildReport cfg.model stubs.timestamp topic findings d),
          events := ev0 :: res.2.1 ++ [ev1, (1, "Complete!")],
          researchCalls := res.2.2, synthCalls := 1, criticCalls := 0,
          reviseCalls := 0 }

/-- Projection of a run result under success. -/
def okMap {α : Type} (f : MultiAgentReport → α) :
    Except String MultiAgentReport → Option α
  | .ok r => some (f r)
  | .error _ => none

instance : Inhabited SubtopicFindings :=
  ⟨{ subtopic := "", summary := "", key_insights := [], sources := [],
     researcher_notes := "", metadata := [] }⟩

/-! ### Ordering of the parallel research results (claims C1, C3) -/

lemma researchLoop_tagged (subtopics : List Subtopic)
    (research : Nat → ResearchOutcome) :
    ∀ (order : List Nat) (completed : Nat),
      (researchLoop subtopics research order completed).1 =
        order.map (fun i => (i, collectFinding subtopics research i)) := by
  intro order
  induction order with
  | nil => intro completed; simp [researchLoop]
  | cons i rest ih =>
    intro completed
    cases hro : research i with
    | ok f => simp [researchLoop, hro, collectFinding, ih]
    | err e => simp [researchLoop, hro, collectFinding, ih]

lemma sortByIndex_of_perm_range (f : Nat → SubtopicFindings) (order : List Nat)
    (n : Nat) (hperm : order.Perm (List.range n)) :
    sortByIndex (order.map (fun i => (i, f i))) =
      (List.range n).map (fun i => (i, f i)) := by
  have hp : (sortByIndex (order.map (fun i => (i, f i)))).Perm
      ((List.range n).map (fun i => (i, f i))) :=
    (List.perm_insertionSort _ _).trans (hperm.map _)
  haveI htot : IsTotal (Nat × SubtopicFindings) (fun a b => a.1 ≤ b.1) :=
    ⟨fun a b => Nat.le_total a.1 b.1⟩
  haveI htr : IsTrans (Nat × SubtopicFindings) (fun a b => a.1 ≤ b.1) :=
    ⟨fun _ _ _ h1 h2 => Nat.le_trans h1 h2⟩
  haveI hanti : IsAntisymm (Nat × SubtopicFindings) (fun a b => a.1 < b.1) :=
    ⟨fun a b h1 h2 => absurd h1 (Nat.lt_asymm h2)⟩
  have hsorted_le : (sortByIndex (order.map (fun i => (i, f i)))).Pairwise
      (fun a b => a.1 ≤ b.1) := List.sorted_insertionSort _ _
  have hnodup : (sortByIndex (order.map (fun i => (i, f i)))).Pairwise
      (fun a b => a.1 ≠ b.1) := by
    have hr : List.map Prod.fst (List.map (fun i => (i, f i)) (List.range n)) =
        List.range n := by
      rw [List.map_map]
      exact List.map_id' _
    have h1 : ((sortByIndex (order.map (fun i => (i, f i)))).map Prod.fst).Perm
        (List.range n) := by
      have h := hp.map Prod.fst
      rwa [hr] at h
    have h2 : ((sortByIndex (order.map (fun i => (i, f i)))).map Prod.fst).Nodup :=
      h1.nodup_iff.mpr (List.nodup_range n)
    exact List.pairwise_map.mp h2
  have hsorted_lt : (sortByIndex (order.map (fun i => (i, f i)))).Pairwise
      (fun a b => a.1 < b.1) :=
    (hsorted_le.and hnodup).imp (fun h => Nat.lt_of_le_of_ne h.1 h.2)
  have hsorted_rhs : ((List.range n).map (fun i => (i, f i))).Pairwise
      (fun a b => a.1 < b.1) := by
    exact List.pairwise_map.mpr (by simpa using List.pairwise_lt_range n)
  exact List.eq_of_perm_of_sorted hp hsorted_lt hsorted_rhs

/-- Whatever the completion order, as long as it resolves each submitted task
exactly once, `_research_in_parallel` returns the per-index results in the
original subtopic order. -/
lemma researchInParallel_findings (subtopics : List Subtopic)
    (research : Nat → ResearchOutcome) (order : List Nat)
    (hperm : order.Perm (List.range subtopics.length)) :
    (researchInParallel subtopics research order).1 =
      (List.range subtopics.length).map (collectFinding subtopics research) := by
  unfold researchInParallel
  simp only [researchLoop_tagged]
  rw [sortByIndex_of_perm_range _ _ _ hperm]
  simp [List.map_map, Function.comp]

lemma getD_range_map (g : Nat → SubtopicFindings) (n j : Nat) (hj : j < n)
    (dflt : SubtopicFindings) :
    (((List.range n).map g).getD j dflt) = g j := by
  rw [List.getD_eq_getElem?_getD]
  simp [List.getElem?_map, List.getElem?_range, hj]

lemma reviseWith_findings (model timestamp : String) (d : SynthesisData)
    (report : MultiAgentReport) :
    (reviseWith model timestamp d report).subtopic_findings =
      report.subtopic_findings := rfl

/-- The critic loop never changes `subtopic_findings`: attaching a review
keeps them, and `revise` rebuilds the report from the same findings. -/
lemma criticLoopGo_ok_findings (model timestamp : String) (maxR : Int)
    (critic : Int → MultiAgentReport → LLMOutput CriticData)
    (reviseOut : Int → LLMOutput SynthesisData) :
    ∀ (fuel : Nat) (iteration : Int) (current r : MultiAgentReport),
      (criticLoopGo model timestamp maxR critic reviseOut fuel iteration current).1 =
        .ok r →
      r.subtopic_findings = current.subtopic_findings := by
  intro fuel
  induction fuel with
  | zero =>
    intro iteration current r h
    simp only [criticLoopGo, Except.ok.injEq] at h
    rw [← h]
  | succ fuel ih =>
    intro iteration current r h
    simp only [criticLoopGo] at h
    cases hcd : critic (iteration + 1) current with
    | invalid => rw [hcd] at h; simp at h
    | valid d =>
      rw [hcd] at h
      simp only at h
      split at h
      · simp only [Except.ok.injEq] at h
        rw [← h]
      · split at h
        · split at h
          · simp only [Except.ok.injEq] at h
            rw [← h]
          · cases hro : reviseOut (iteration + 1) with
            | invalid => rw [hro] at h; simp at h
            | valid sd =>
              rw [hro] at h
              simp only at h
              have := ih (iteration + 1)
                (reviseWith model timestamp sd current) r h
              rw [this, reviseWith_findings]
        · exact ih (iteration + 1) current r h

lemma buildReport_findings (model timestamp topic : String)
    (fs : List SubtopicFindings) (d : SynthesisData) :
    (buildReport model timestamp topic fs d).subtopic_findings = fs := rfl

/-- C3: if the researcher task for one subtopic raises, `_research_in_parallel`
still returns a full-length list; that subtopic's findings have empty `sources`
and `key_insights` and carry a non-empty `metadata` error entry, and every
other successfully researched subtopic's findings are exactly the researcher's
value.  (The function is total: no exception escapes the batch.) -/
theorem c3_per_task_failure_containment (subtopics : List Subtopic)
    (research : Nat → ResearchOutcome) (order : List Nat) (idx : Nat) (e : String)
    (hperm : order.Perm (List.range subtopics.length))
    (hidx : idx < subtopics.length)
    (herr : research idx = .err e) (hne : e ≠ "") :
    (researchInParallel subtopics research order).1.length = subtopics.length ∧
    ((researchInParallel subtopics research order).1.getD idx default).sources = [] ∧
    ((researchInParallel subtopics research order).1.getD idx default).key_insights = [] ∧
    (((researchInParallel subtopics research order).1.getD idx default).metadata.lookup
      "error" = some e ∧ e ≠ "") ∧
    (∀ j f, j < subtopics.length → j ≠ idx → research j = .ok f →
      (researchInParallel subtopics research order).1.getD j default = f) := by
  have hres := researchInParallel_findings subtopics research order hperm
  rw [hres]
  refine ⟨by simp, ?_, ?_, ⟨?_, hne⟩, ?_⟩
  · rw [getD_range_map _ _ _ hidx]
    simp [collectFinding, herr, errorFinding]
  · rw [getD_range_map _ _ _ hidx]
    simp [collectFinding, herr, errorFinding]
  · rw [getD_range_map _ _ _ hidx]
    simp [collectFinding, herr, errorFinding, List.lookup]
  · intro j f hj _ hok
    rw [getD_range_map _ _ _ hj]
    simp [collectFinding, hok]

def c3Subtopics : List Subtopic :=
  [{ name := "A", description := "", search_queries := [] },
   { name := "B", description := "", search_queries := [] }]

def c3Research : Nat → ResearchOutcome := fun i =>
  if i = 0 then
    .ok { subtopic := "A", summary := "sa", key_insights := [], sources := [],
          researcher_notes := "", metadata := [] }
  else .err "boom"

theorem c3_per_task_failure_containment_witness :
    ([1, 0].Perm (List.range c3Subtopics.length) ∧ 1 < c3Subtopics.length ∧
      c3Research 1 = .err "boom" ∧ "boom" ≠ "") ∧
    (researchInParallel c3Subtopics c3Research [1, 0]).1.length =
      c3Subtopics.length :=
  ⟨⟨by decide, by decide, rfl, by decide⟩,
   (c3_per_task_failure_containment c3Subtopics c3Research [1, 0] 1 "boom"
     (by decide) (by decide) rfl (by decide)).1⟩

/-- C1: whenever the Splitter yields a non-empty subtopic list and `run`
returns a report, that report's `subtopic_findings` has exactly one entry per
subtopic, in the Splitter's output order (entry `i` is subtopic `i`'s result),
for every completion order of the parallel researcher tasks. -/
theorem c1_run_preserves_splitter_order (cfg : OrchestratorConfig)
    (stubs : RunStubs) (order : List Nat) (topic style tone : String)
    (sd : SplitData)
    (hsplit : stubs.split = .valid sd)
    (hne : parseSubtopics sd ≠ [])
    (hperm : order.Perm (List.range (parseSubtopics sd).length))
    (hok : ((run cfg stubs order topic style tone).outcome).isOk = true) :
    okMap (fun r => r.subtopic_findings)
        (run cfg stubs order topic style tone).outcome =
      some ((List.range (parseSubtopics sd).length).map
        (collectFinding (parseSubtopics sd) stubs.research)) ∧
    okMap (fun r => r.subtopic_findings.length)
        (run cfg stubs order topic style tone).outcome =
      some (parseSubtopics sd).length := by
  have hempty : (parseSubtopics sd).isEmpty = false := by
    simp [List.isEmpty_iff, hne]
  have hfind := researchInParallel_findings (parseSubtopics sd) stubs.research
    order hperm
  have hmain : okMap (fun r => r.subtopic_findings)
      (run cfg stubs order topic style tone).outcome =
      some ((List.range (parseSubtopics sd).length).map
        (collectFinding (parseSubtopics sd) stubs.research)) := by
    simp only [run, hsplit, analyzeTopic, hempty] at hok ⊢
    simp only [Bool.false_eq_true, if_false] at hok ⊢
    cases hsynth : stubs.synth with
    | invalid =>
      rw [hsynth] at hok
      simp [Except.isOk, Except.toBool] at hok
    | valid d =>
      rw [hsynth] at hok
      dsimp only at hok ⊢
      by_cases hcrit : cfg.enable_critic
      · simp only [hcrit, if_true] at hok ⊢
        cases hloop : (runCriticLoop cfg.model stubs.timestamp cfg.max_revisions
            stubs.critic stubs.reviseOut
            (buildReport cfg.model stubs.timestamp topic
              (researchInParallel (parseSubtopics sd) stubs.research order).1 d)).1 with
        | error err =>
          rw [hloop] at hok
          simp [Except.isOk, Except.toBool] at hok
        | ok final =>
          dsimp only at hok ⊢
          simp only [okMap]
          have hpres := criticLoopGo_ok_findings cfg.model stubs.timestamp
            cfg.max_revisions stubs.critic stubs.reviseOut
            cfg.max_revisions.toNat 0 _ final hloop
          rw [hpres, buildReport_findings, hfind]
      · simp only [hcrit, Bool.false_eq_true, if_false] at hok ⊢
        simp only [okMap]
        rw [buildReport_findings, hfind]
  refine ⟨hmain, ?_⟩
  cases houtcome : (run cfg stubs order topic style tone).outcome with
  | error err => rw [houtcome] at hmain; simp [okMap] at hmain
  | ok r =>
    rw [houtcome] at hmain
    simp only [okMap, Option.some.injEq] at hmain ⊢
    rw [hmain]
    simp

def c1Sd : SplitData :=
  { main_topic_analysis := some "analysis",
    subtopics := some [{ name := some "A" }, { name := some "B" }] }

def c1Stubs : RunStubs :=
  { split := .valid c1Sd
    research := fun i =>
      if i = 0 then
        .ok { subtopic := "A", summary := "sa", key_insights := [], sources := [],
              researcher_notes := "", metadata := [] }
      else
        .ok { subtopic := "B", summary := "sb", key_insights := [], sources := [],
              researcher_notes := "", metadata := [] }
    synth := .valid {}
    critic := fun _ _ => .invalid
    reviseOut := fun _ => .invalid
    timestamp := "ts" }

def c1Cfg : OrchestratorConfig := { enable_critic := false }

theorem c1_run_preserves_splitter_order_witness :
    (c1Stubs.split = LLMOutput.valid c1Sd ∧ parseSubtopics c1Sd ≠ [] ∧
      [1, 0].Perm (List.range (parseSubtopics c1Sd).length) ∧
      ((run c1Cfg c1Stubs [1, 0] "t" "Technical" "Neutral").outcome).isOk = true) ∧
    okMap (fun r => r.subtopic_findings.length)
        (run c1Cfg c1Stubs [1, 0] "t" "Technical" "Neutral").outcome =
      some (parseSubtopics c1Sd).length :=
  ⟨⟨rfl, by decide, by decide, by decide⟩,
   (c1_run_preserves_splitter_order c1Cfg c1Stubs [1, 0] "t" "Technical" "Neutral"
     c1Sd rfl (by decide) (by decide) (by decide)).2⟩

/-! ### The critic-revision loop (claims C2, C9, C10) -/

/-- With a critic that answers REVISION_NEEDED (as valid JSON) at every
iteration and revision outputs that always parse, a loop with `fuel` remaining
entries reviews `fuel` times, revises `fuel - 1` times, adds `fuel - 1` to the
report's revision count, keeps the findings, and attaches a review with
iteration `maxR` and decision REVISION_NEEDED. -/
lemma criticLoopGo_always_revision (model timestamp : String) (maxR : Int)
    (critic : Int → MultiAgentReport → LLMOutput CriticData)
    (reviseOut : Int → LLMOutput SynthesisData)
    (hcrit : ∀ i r, ∃ d, critic i r = .valid d ∧ d.decision = some "REVISION_NEEDED")
    (hrev : ∀ i, ∃ sd, reviseOut i = .valid sd) :
    ∀ (fuel : Nat) (iteration : Int) (current : MultiAgentReport),
      1 ≤ fuel → maxR = iteration + fuel →
      (criticLoopGo model timestamp maxR critic reviseOut fuel iteration current).2.2.1 = fuel ∧
      (criticLoopGo model timestamp maxR critic reviseOut fuel iteration current).2.2.2 = fuel - 1 ∧
      okMap (fun r => r.revision_count)
          (criticLoopGo model timestamp maxR critic reviseOut fuel iteration current).1 =
        some (current.revision_count + (fuel - 1)) ∧
      okMap (fun r => r.critic_review.map (fun rv => (rv.iteration, rv.decision)))
          (criticLoopGo model timestamp maxR critic reviseOut fuel iteration current).1 =
        some (some (maxR, "REVISION_NEEDED")) ∧
      okMap (fun r => r.subtopic_findings)
          (criticLoopGo model timestamp maxR critic reviseOut fuel iteration current).1 =
        some current.subtopic_findings := by
  intro fuel
  induction fuel with
  | zero => intro iteration current h1 _; exact absurd h1 (by omega)
  | succ n ih =>
    intro iteration current _ hsync
    obtain ⟨d, hcd, hdec⟩ := hcrit (iteration + 1) current
    have hdec0 : (buildCriticReview d).decision = "REVISION_NEEDED" := by
      simp [buildCriticReview, hdec]
    have hdecision :
        ({ buildCriticReview d with iteration := iteration + 1 } : CriticReview).decision =
          "REVISION_NEEDED" := hdec0
    by_cases hle : maxR ≤ iteration + 1
    · have hn : n = 0 := by omega
      subst hn
      have hit : iteration + 1 = maxR := by omega
      simp only [criticLoopGo, hcd]
      rw [if_neg (by rw [hdecision]; decide), if_pos hdecision, if_pos hle]
      simp [okMap, hit, hdec0, hdecision]
    · have hn : 1 ≤ n := by omega
      obtain ⟨sd, hsd⟩ := hrev (iteration + 1)
      have hrec := ih (iteration + 1)
        (reviseWith model timestamp sd current) hn (by omega)
      simp only [criticLoopGo, hcd]
      rw [if_neg (by rw [hdecision]; decide), if_pos hdecision, if_neg hle, hsd]
      dsimp only
      refine ⟨by rw [hrec.1], by rw [hrec.2.1]; omega, ?_, ?_, ?_⟩
      · rw [hrec.2.2.1]
        have hrc : (reviseWith model timestamp sd current).revision_count =
            current.revision_count + 1 := rfl
        rw [hrc]
        congr 1
        omega
      · rw [hrec.2.2.2.1]
      · rw [hrec.2.2.2.2, reviseWith_findings]

/-- C2 counterexample: the claim demands that for `max_revisions = N = 1` and
an always-REVISION_NEEDED critic, the returned report's `revision_count`
equals `N - 1 = 0` for every input report; but `_run_critic_loop` never
resets the count, so a report entering the loop with `revision_count = 5`
leaves it with `revision_count = 5 ≠ 0` (while `revise` is indeed invoked
`N - 1 = 0` times). -/
def c2Report : MultiAgentReport :=
  { topic := "t", subtopics := [], executive_summary := "",
    subtopic_findings := [], overall_insights := [], consensus_points := [],
    conflicts_and_gaps := "", all_sources := [], top_sources := [],
    revision_count := 5 }

def c2Critic : Int → MultiAgentReport → LLMOutput CriticData :=
  fun _ _ => .valid { decision := some "REVISION_NEEDED" }

def c2Revise : Int → LLMOutput SynthesisData := fun _ => .valid {}

theorem c2_revision_count_counterexample :
    okMap (fun r => r.revision_count)
        (runCriticLoop "m" "ts" 1 c2Critic c2Revise c2Report).1 = some 5 ∧
    (runCriticLoop "m" "ts" 1 c2Critic c2Revise c2Report).2.2.2 =
      ((1 : Int) - 1).toNat ∧
    ¬ (5 : Nat) = ((1 : Int) - 1).toNat := by
  refine ⟨?_, ?_, by decide⟩ <;> decide

/-- C2 (amended): with `max_revisions = N ≥ 1` and a Critic stub returning
valid REVISION_NEEDED output on every iteration (and revision outputs that
parse), `_run_critic_loop` invokes `revise` exactly `N - 1` times, the
returned report's `revision_count` equals the input report's `revision_count`
plus `N - 1` (hence `N - 1` for the freshly synthesized report the
orchestrator passes in, whose count is 0), and the attached `critic_review`
has `iteration = N` and decision REVISION_NEEDED. -/
theorem c2_revision_loop_amended (model timestamp : String) (N : Int)
    (critic : Int → MultiAgentReport → LLMOutput CriticData)
    (reviseOut : Int → LLMOutput SynthesisData) (report : MultiAgentReport)
    (hN : 1 ≤ N)
    (hcrit : ∀ i r, ∃ d, critic i r = .valid d ∧ d.decision = some "REVISION_NEEDED")
    (hrev : ∀ i, ∃ sd, reviseOut i = .valid sd) :
    (runCriticLoop model timestamp N critic reviseOut report).2.2.2 = (N - 1).toNat ∧
    okMap (fun r => r.revision_count)
        (runCriticLoop model timestamp N critic reviseOut report).1 =
      some (report.revision_count + (N - 1).toNat) ∧
    okMap (fun r => r.critic_review.map (fun rv => (rv.iteration, rv.decision)))
        (runCriticLoop model timestamp N critic reviseOut report).1 =
      some (some (N, "REVISION_NEEDED")) := by
  have hfuel : 1 ≤ N.toNat := by omega
  have hsync : N = 0 + (N.toNat : Int) := by omega
  have h := criticLoopGo_always_revision model timestamp N critic reviseOut
    hcrit hrev N.toNat 0 report hfuel hsync
  have htn : N.toNat - 1 = (N - 1).toNat := by omega
  refine ⟨?_, ?_, ?_⟩
  · rw [runCriticLoop, h.2.1, htn]
  · rw [runCriticLoop, h.2.2.1, htn]
  · rw [runCriticLoop, h.2.2.2.1]

theorem c2_revision_loop_amended_witness :
    ((1 : Int) ≤ 2 ∧
      c2Critic 1 c2Report = .valid { decision := some "REVISION_NEEDED" } ∧
      c2Revise 1 = .valid {}) ∧
    (runCriticLoop "m" "ts" 2 c2Critic c2Revise c2Report).2.2.2 = 1 :=
  ⟨⟨by decide, rfl, rfl⟩,
   (c2_revision_loop_amended "m" "ts" 2 c2Critic c2Revise c2Report (by decide)
     (fun i r => ⟨{ decision := some "REVISION_NEEDED" }, rfl, rfl⟩)
     (fun i => ⟨{}, rfl⟩)).1⟩

/-- C9: with `max_revisions = 3`, a critic answering REVISION_NEEDED on
iteration 1 and APPROVED on iteration 2 (as valid JSON) and a parsing revision
output, `_run_critic_loop` invokes `revise` exactly once and returns with an
attached review having `iteration = 2` and decision APPROVED. -/
theorem c9_early_exit (model timestamp : String)
    (critic : Int → MultiAgentReport → LLMOutput CriticData)
    (reviseOut : Int → LLMOutput SynthesisData) (report : MultiAgentReport)
    (d1 d2 : CriticData) (sd1 : SynthesisData)
    (hc1 : ∀ r, critic 1 r = .valid d1)
    (hd1 : d1.decision = some "REVISION_NEEDED")
    (hc2 : ∀ r, critic 2 r = .valid d2)
    (hd2 : d2.decision = some "APPROVED")
    (hr1 : reviseOut 1 = .valid sd1) :
    (runCriticLoop model timestamp 3 critic reviseOut report).2.2.2 = 1 ∧
    okMap (fun r => r.critic_review.map (fun rv => (rv.iteration, rv.decision)))
        (runCriticLoop model timestamp 3 critic reviseOut report).1 =
      some (some (2, "APPROVED")) := by
  simp [runCriticLoop, criticLoopGo, hc1, hc2, hr1, hd1, hd2,
    buildCriticReview, okMap]

def c9Report : MultiAgentReport :=
  { topic := "t", subtopics := [], executive_summary := "",
    subtopic_findings := [], overall_insights := [], consensus_points := [],
    conflicts_and_gaps := "", all_sources := [], top_sources := [] }

def c9Critic : Int → MultiAgentReport → LLMOutput CriticData :=
  fun i _ =>
    if i = 1 then .valid { decision := some "REVISION_NEEDED" }
    else .valid { decision := some "APPROVED" }

def c9Revise : Int → LLMOutput SynthesisData := fun _ => .valid {}

theorem c9_early_exit_witness :
    (c9Critic 1 c9Report = .valid { decision := some "REVISION_NEEDED" } ∧
      c9Critic 2 c9Report = .valid { decision := some "APPROVED" } ∧
      c9Revise 1 = .valid {}) ∧
    (runCriticLoop "m" "ts" 3 c9Critic c9Revise c9Report).2.2.2 = 1 :=
  ⟨⟨rfl, rfl, rfl⟩,
   (c9_early_exit "m" "ts" c9Critic c9Revise c9Report
     { decision := some "REVISION_NEEDED" } { decision := some "APPROVED" } {}
     (fun r => rfl) rfl (fun r => rfl) rfl rfl).1⟩

/-- C10: with the critic enabled but `max_revisions ≤ 0`, the `while` loop
body never runs: the critic is never invoked and `run` returns the initially
synthesized report, with no attached `critic_review` and `revision_count`
zero. -/
theorem c10_nonpositive_max_revisions (cfg : OrchestratorConfig)
    (stubs : RunStubs) (order : List Nat) (topic style tone : String)
    (sd : SplitData) (d : SynthesisData)
    (hsplit : stubs.split = .valid sd)
    (hne : parseSubtopics sd ≠ [])
    (hsynth : stubs.synth = .valid d)
    (hcrit : cfg.enable_critic = true)
    (hmax : cfg.max_revisions ≤ 0) :
    (run cfg stubs order topic style tone).criticCalls = 0 ∧
    (run cfg stubs order topic style tone).reviseCalls = 0 ∧
    (run cfg stubs order topic style tone).outcome =
      .ok (buildReport cfg.model stubs.timestamp topic
        (researchInParallel (parseSubtopics sd) stubs.research order).1 d) ∧
    okMap (fun r => r.critic_review)
        (run cfg stubs order topic style tone).outcome = some none ∧
    okMap (fun r => r.revision_count)
        (run cfg stubs order topic style tone).outcome = some 0 := by
  have hempty : (parseSubtopics sd).isEmpty = false := by
    simp [List.isEmpty_iff, hne]
  have hfuel : cfg.max_revisions.toNat = 0 := by omega
  have hloop : ∀ rep : MultiAgentReport,
      runCriticLoop cfg.model stubs.timestamp cfg.max_revisions stubs.critic
        stubs.reviseOut rep = (.ok rep, [], 0, 0) := by
    intro rep
    rw [runCriticLoop, hfuel]
    rfl
  simp only [run, hsplit, analyzeTopic, hempty, Bool.false_eq_true, if_false,
    hsynth, hcrit, if_true]
  rw [hloop]
  exact ⟨rfl, rfl, rfl, rfl, rfl⟩

def c10Sd : SplitData := { subtopics := some [{ name := some "A" }] }

def c10Stubs : RunStubs :=
  { split := .valid c10Sd
    research := fun _ =>
      .ok { subtopic := "A", summary := "sa", key_insights := [], sources := [],
            researcher_notes := "", metadata := [] }
    synth := .valid {}
    critic := fun _ _ => .valid { decision := some "REVISION_NEEDED" }
    reviseOut := fun _ => .valid {}
    timestamp := "ts" }

def c10Cfg : OrchestratorConfig := { enable_critic := true, max_revisions := 0 }

theorem c10_nonpositive_max_revisions_witness :
    (c10Stubs.split = LLMOutput.valid c10Sd ∧ parseSubtopics c10Sd ≠ [] ∧
      c10Stubs.synth = LLMOutput.valid {} ∧ c10Cfg.enable_critic = true ∧
      c10Cfg.max_revisions ≤ 0) ∧
    (run c10Cfg c10Stubs [0] "t" "Technical" "Neutral").criticCalls = 0 :=
  ⟨⟨rfl, by decide, rfl, rfl, by decide⟩,
   (c10_nonpositive_max_revisions c10Cfg c10Stubs [0] "t" "Technical" "Neutral"
     c10Sd {} rfl (by decide) rfl rfl (by decide)).1⟩

/-! ### Empty subtopic list (claim C7) -/

/-- C7 (amended): on an empty subtopic list, `run` aborts with the pipeline
precondition error before any researcher, synthesizer or critic step; but
`run_sequential` performs no such check — it invokes no researcher (the loop
is vacuous) yet proceeds to invoke the synthesizer once on the empty findings
list and completes (or propagates the synthesizer's own JSON error), and its
critic count is zero. -/
theorem c7_empty_subtopics (cfg : OrchestratorConfig) (stubs : RunStubs)
    (order : List Nat) (topic style tone : String) (sd : SplitData)
    (hsplit : stubs.split = .valid sd)
    (hempty : parseSubtopics sd = []) :
    (run cfg stubs order topic style tone).outcome =
      .error "Topic splitter failed to generate subtopics" ∧
    (run cfg stubs order topic style tone).researchCalls = 0 ∧
    (run cfg stubs order topic style tone).synthCalls = 0 ∧
    (run cfg stubs order topic style tone).criticCalls = 0 ∧
    (runSequential cfg stubs topic style tone).researchCalls = 0 ∧
    (runSequential cfg stubs topic style tone).synthCalls = 1 ∧
    (runSequential cfg stubs topic style tone).criticCalls = 0 ∧
    (∀ d, stubs.synth = .valid d →
      (runSequential cfg stubs topic style tone).outcome =
        .ok (buildReport cfg.model stubs.timestamp topic [] d)) ∧
    (stubs.synth = .invalid →
      (runSequential cfg stubs topic style tone).outcome =
        .error "json.JSONDecodeError") := by
  have hrun : (run cfg stubs order topic style tone).outcome =
        .error "Topic splitter failed to generate subtopics" ∧
      (run cfg stubs order topic style tone).researchCalls = 0 ∧
      (run cfg stubs order topic style tone).synthCalls = 0 ∧
      (run cfg stubs order topic style tone).criticCalls = 0 := by
    simp [run, hsplit, analyzeTopic, hempty]
  refine ⟨hrun.1, hrun.2.1, hrun.2.2.1, hrun.2.2.2, ?_, ?_, ?_, ?_, ?_⟩ <;>
    · simp only [runSequential, hsplit, analyzeTopic, hempty]
      cases hsynth : stubs.synth with
      | invalid => simp [seqGo, hsynth]
      | valid d0 => simp [seqGo, hsynth]

def c7Sd : SplitData := { main_topic_analysis := some "a", subtopics := some [] }

def c7Stubs : RunStubs :=
  { split := .valid c7Sd
    research := fun _ => .err "never invoked"
    synth := .valid {}
    critic := fun _ _ => .valid {}
    reviseOut := fun _ => .valid {}
    timestamp := "ts" }

/-- C7 counterexample: the claim says `run_sequential` also aborts with an
error before any synthesis when the Splitter returns zero subtopics, but it
completes successfully, returning a report synthesized from an empty findings
list (the synthesizer is invoked once). -/
theorem c7_empty_subtopics_counterexample :
    ((runSequential {} c7Stubs "t" "Technical" "Neutral").outcome).isOk = true ∧
    (runSequential {} c7Stubs "t" "Technical" "Neutral").synthCalls = 1 := by
  refine ⟨?_, ?_⟩ <;> decide

theorem c7_empty_subtopics_witness :
    (c7Stubs.split = LLMOutput.valid c7Sd ∧ parseSubtopics c7Sd = []) ∧
    (run {} c7Stubs [] "t" "Technical" "Neutral").outcome =
      .error "Topic splitter failed to generate subtopics" :=
  ⟨⟨rfl, by decide⟩,
   (c7_empty_subtopics {} c7Stubs [] "t" "Technical" "Neutral" c7Sd rfl
     (by decide)).1⟩

/-! ### Revision keeps findings and topic (claim C8) -/

/-- C8: `revise` returns a report with the same `topic` and the very same
`subtopic_findings` as the input and `revision_count` incremented by one;
every synthesis-derived field is rebuilt from the new call's output (the
sources being the URL-deduplicated union over the same findings). -/
theorem c8_revise_frame (model timestamp : String) (d : SynthesisData)
    (report : MultiAgentReport) :
    (reviseWith model timestamp d report).topic = report.topic ∧
    (reviseWith model timestamp d report).subtopic_findings =
      report.subtopic_findings ∧
    (reviseWith model timestamp d report).revision_count =
      report.revision_count + 1 ∧
    (reviseWith model timestamp d report).executive_summary =
      d.executive_summary.getD "" ∧
    (reviseWith model timestamp d report).consensus_points =
      d.consensus_points.getD [] ∧
    (reviseWith model timestamp d report).conflicts_and_gaps =
      d.conflicts_and_gaps.getD "" ∧
    (reviseWith model timestamp d report).all_sources =
      dedupByUrlGo [] (allSourcesOf report.subtopic_findings) :=
  ⟨rfl, rfl, rfl, rfl, rfl, rfl, rfl⟩

/-! ### Parse-error recovery (claim C5) -/

/-- C5 (amended): when an agent's output is valid JSON with missing fields,
each of the four components substitutes its documented defaults and raises
nothing; when the output is not valid JSON, only the Researcher recovers
(treating it as the empty dict and building fallback findings) — the bare
`json.loads` in the Splitter, the Synthesizer and the Critic raises a
`json.JSONDecodeError` that leaves the agent and reaches the Orchestrator. -/
theorem c5_parse_recovery_amended :
    (∀ st src an q a m t, parseFindings st src an q a m t .invalid =
        parseFindings st src an q a m t (.valid {})) ∧
    (∀ m t topic fs, synthesize m t topic fs .invalid =
        .error "json.JSONDecodeError") ∧
    (review .invalid = .error "json.JSONDecodeError") ∧
    (analyzeTopic .invalid = .error "json.JSONDecodeError") ∧
    (review (.valid {}) = .ok { decision := "APPROVED"
                                overall_score := 7
                                issues_found := []
                                strengths := []
                                revision_instructions := ""
                                iteration := 0 }) ∧
    (analyzeTopic (.valid {}) = .ok ("", [])) ∧
    (∀ m t topic fs d, (synthesize m t topic fs (.valid d)).isOk = true) ∧
    (∀ d, (review (.valid d)).isOk = true) :=
  ⟨fun _ _ _ _ _ _ _ => rfl, fun _ _ _ _ => rfl, rfl, rfl, rfl, rfl,
   fun _ _ _ _ _ => rfl, fun _ => rfl⟩

def c5Sd : SplitData :=
  { subtopics := some [{ name := some "A" }, { name := some "B" }] }

def c5Stubs : RunStubs :=
  { split := .valid c5Sd
    research := fun _ =>
      .ok { subtopic := "A", summary := "sa", key_insights := [], sources := [],
            researcher_notes := "", metadata := [] }
    synth := .invalid
    critic := fun _ _ => .valid {}
    reviseOut := fun _ => .valid {}
    timestamp := "ts" }

/-- C5 counterexample: with a synthesizer response that is not valid JSON, the
`json.JSONDecodeError` from `synthesize`'s bare `json.loads` escapes to — and
out of — the Orchestrator's `run`, contradicting the claim that parse errors
are never raised to the Orchestrator. -/
theorem c5_parse_recovery_counterexample :
    (run {} c5Stubs [0, 1] "t" "Technical" "Neutral").outcome =
      .error "json.JSONDecodeError" := by decide

/-! ### Progress reporting (claim C6) -/

lemma researchLoop_events_bounds (subtopics : List Subtopic)
    (research : Nat → ResearchOutcome) :
    ∀ (order : List Nat) (completed : Nat),
      completed + order.length ≤ subtopics.length →
      ∀ ev ∈ (researchLoop subtopics research order completed).2.1,
        0 ≤ ev.1 ∧ ev.1 ≤ 1 := by
  intro order
  induction order with
  | nil => intro completed _ ev hev; simp [researchLoop] at hev
  | cons i rest ih =>
    intro completed hle ev hev
    cases hro : research i with
    | err e =>
      rw [researchLoop] at hev
      rw [hro] at hev
      exact ih (completed + 1) (by simp at hle ⊢; omega) ev hev
    | ok f =>
      rw [researchLoop] at hev
      rw [hro] at hev
      simp only [List.mem_cons] at hev
      rcases hev with rfl | hev
      · have hn : 0 < subtopics.length := by simp at hle; omega
        have hc : completed + 1 ≤ subtopics.length := by simp at hle; omega
        have hq0 : (0 : ℚ) < ((completed + 1 : Nat) : ℚ) := by
          exact_mod_cast Nat.succ_pos completed
        have hqn : (0 : ℚ) < ((subtopics.length : Nat) : ℚ) := by
          exact_mod_cast hn
        have hratio : ((completed + 1 : Nat) : ℚ) / ((subtopics.length : Nat) : ℚ) ≤ 1 := by
          rw [div_le_one hqn]
          exact_mod_cast hc
        have hratio0 : (0 : ℚ) ≤ ((completed + 1 : Nat) : ℚ) / ((subtopics.length : Nat) : ℚ) :=
          le_of_lt (div_pos hq0 hqn)
        constructor
        · simp only [mul_div_assoc]
          nlinarith
        · simp only [mul_div_assoc]
          nlinarith
      · exact ih (completed + 1) (by simp at hle ⊢; omega) ev hev

lemma criticLoopGo_events_bounds (model timestamp : String) (maxR : Int)
    (critic : Int → MultiAgentReport → LLMOutput CriticData)
    (reviseOut : Int → LLMOutput SynthesisData) :
    ∀ (fuel : Nat) (iteration : Int) (current : MultiAgentReport),
      0 ≤ iteration → maxR = iteration + fuel →
      ∀ ev ∈ (criticLoopGo model timestamp maxR critic reviseOut fuel
          iteration current).2.1,
        0 ≤ ev.1 ∧ ev.1 ≤ 1 := by
  intro fuel
  induction fuel with
  | zero => intro iteration current _ _ ev hev; simp [criticLoopGo] at hev
  | succ n ih =>
    intro iteration current hit hsync ev hev
    have hrb : 0 ≤ (4/5 + 3/20 * ((iteration + 1 : Int) : ℚ) / ((maxR : ℚ) + 1) : ℚ) ∧
        (4/5 + 3/20 * ((iteration + 1 : Int) : ℚ) / ((maxR : ℚ) + 1) : ℚ) ≤ 1 := by
      have h1 : (0 : ℚ) < ((iteration + 1 : Int) : ℚ) := by
        exact_mod_cast Int.lt_add_one_of_le hit
      have h2 : ((iteration + 1 : Int) : ℚ) < (maxR : ℚ) + 1 := by
        have : iteration + 1 < maxR + 1 := by omega
        exact_mod_cast this
      have h3 : (0 : ℚ) < (maxR : ℚ) + 1 := lt_trans h1 h2
      have hq0 : (0 : ℚ) < ((iteration + 1 : Int) : ℚ) / ((maxR : ℚ) + 1) :=
        div_pos h1 h3
      have hq1 : ((iteration + 1 : Int) : ℚ) / ((maxR : ℚ) + 1) < 1 :=
        (div_lt_one h3).mpr h2
      constructor <;> · simp only [mul_div_assoc]; nlinarith
    have h95 : (0 : ℚ) ≤ 19/20 ∧ (19/20 : ℚ) ≤ 1 := by norm_num
    simp only [criticLoopGo] at hev
    cases hcd : critic (iteration + 1) current with
    | invalid =>
      rw [hcd] at hev
      simp only [List.mem_cons, List.not_mem_nil, or_false] at hev
      subst hev
      exact hrb
    | valid d =>
      rw [hcd] at hev
      dsimp only at hev
      by_cases happ : ({ buildCriticReview d with iteration := iteration + 1 } :
          CriticReview).decision = "APPROVED"
      · rw [if_pos happ] at hev
        simp only [List.mem_cons, List.not_mem_nil, or_false] at hev
        rcases hev with rfl | rfl
        · exact hrb
        · exact h95
      · rw [if_neg happ] at hev
        by_cases hrn : ({ buildCriticReview d with iteration := iteration + 1 } :
            CriticReview).decision = "REVISION_NEEDED"
        · rw [if_pos hrn] at hev
          by_cases hle : maxR ≤ iteration + 1
          · rw [if_pos hle] at hev
            simp only [List.mem_cons, List.not_mem_nil, or_false] at hev
            rcases hev with rfl | rfl
            · exact hrb
            · exact h95
          · rw [if_neg hle] at hev
            cases hro : reviseOut (iteration + 1) with
            | invalid =>
              rw [hro] at hev
              simp only [List.mem_cons, List.not_mem_nil, or_false] at hev
              rcases hev with rfl | rfl
              · exact hrb
              · exact hrb
            | valid sd =>
              rw [hro] at hev
              dsimp only at hev
              simp only [List.mem_cons] at hev
              rcases hev with rfl | rfl | hev
              · exact hrb
              · exact hrb
              · exact ih (iteration + 1)
                  (reviseWith model timestamp sd current) (by omega) (by omega) ev hev
        · rw [if_neg hrn] at hev
          dsimp only at hev
          simp only [List.mem_cons] at hev
          rcases hev with rfl | hev
          · exact hrb
          · exact ih (iteration + 1) current (by omega) (by omega) ev hev

def c6Sd : SplitData :=
  { subtopics := some [{ name := some "A" }, { name := some "B" }] }

def c6Stubs : RunStubs :=
  { split := .valid c6Sd
    research := fun _ =>
      .ok { subtopic := "A", summary := "sa", key_insights := [], sources := [],
            researcher_notes := "", metadata := [] }
    synth := .valid {}
    critic := fun _ _ => .valid {}
    reviseOut := fun _ => .valid {}
    timestamp := "ts" }

def c6Cfg : OrchestratorConfig := { enable_critic := false }

/-- C6 counterexample: in a run with two subtopics whose researchers both
succeed, the last research completion reports progress
`0.2 + 0.6·2/2 = 0.8` and the synthesis step then reports `0.7` — the emitted
progress sequence is not monotonically non-decreasing. -/
theorem c6_progress_monotonicity_counterexample :
    ¬ List.Chain' (fun a b => a.1 ≤ b.1)
      (run c6Cfg c6Stubs [0, 1] "t" "Technical" "Neutral").events := by
  intro h
  have hlen : 3 <
      (run c6Cfg c6Stubs [0, 1] "t" "Technical" "Neutral").events.length - 1 := by
    decide
  have h34 := List.chain'_iff_get.mp h 3 hlen
  norm_num [run, c6Cfg, c6Stubs, c6Sd, analyzeTopic, parseSubtopics,
    researchInParallel, researchLoop, sortByIndex, List.insertionSort,
    List.orderedInsert, collectFinding, List.get] at h34

/-- C6 (amended): every progress value emitted by `run` lies in `[0, 1]` (for
any completion order resolving at most one task per subtopic), but the
sequence is not monotonically non-decreasing: after the research phase has
reported up to `0.8`, the synthesis update reports `0.7` (see the
counterexample). -/
theorem c6_progress_bounds_amended (cfg : OrchestratorConfig) (stubs : RunStubs)
    (order : List Nat) (topic style tone : String) (sd : SplitData)
    (hsplit : stubs.split = .valid sd)
    (hlen : order.length ≤ (parseSubtopics sd).length) :
    ∀ ev ∈ (run cfg stubs order topic style tone).events,
      0 ≤ ev.1 ∧ ev.1 ≤ 1 := by
  have hresearch : ∀ ev ∈ (researchInParallel (parseSubtopics sd)
      stubs.research order).2, 0 ≤ ev.1 ∧ ev.1 ≤ 1 := by
    intro ev hev
    have heq : (researchInParallel (parseSubtopics sd) stubs.research order).2 =
        (researchLoop (parseSubtopics sd) stubs.research order 0).2.1 := rfl
    rw [heq] at hev
    exact researchLoop_events_bounds (parseSubtopics sd) stubs.research order 0
      (by omega) ev hev
  have hloopB : ∀ rep : MultiAgentReport,
      ∀ ev ∈ (runCriticLoop cfg.model stubs.timestamp cfg.max_revisions
        stubs.critic stubs.reviseOut rep).2.1, 0 ≤ ev.1 ∧ ev.1 ≤ 1 := by
    intro rep ev hev
    rw [runCriticLoop] at hev
    by_cases hm : 0 ≤ cfg.max_revisions
    · exact criticLoopGo_events_bounds cfg.model stubs.timestamp
        cfg.max_revisions stubs.critic stubs.reviseOut
        cfg.max_revisions.toNat 0 rep le_rfl (by omega) ev hev
    · have h0 : cfg.max_revisions.toNat = 0 := by omega
      rw [h0] at hev
      simp [criticLoopGo] at hev
  by_cases hempty : parseSubtopics sd = []
  · have he : (parseSubtopics sd).isEmpty = true := by simp [hempty]
    simp only [run, hsplit, analyzeTopic, he, if_true]
    intro ev hev
    simp only [List.mem_singleton] at hev
    subst hev
    norm_num
  · have he : (parseSubtopics sd).isEmpty = false := by
      simp [List.isEmpty_iff, hempty]
    simp only [run, hsplit, analyzeTopic, he, Bool.false_eq_true, if_false]
    cases hsynth : stubs.synth with
    | invalid =>
      intro ev hev
      simp only [List.mem_cons, List.mem_append, List.mem_singleton,
        List.not_mem_nil, or_false, false_or, or_assoc] at hev
      rcases hev with rfl | rfl | h | rfl
      · norm_num
      · norm_num
      · exact hresearch ev h
      · norm_num
    | valid d =>
      by_cases hcrit : cfg.enable_critic
      · simp only [hcrit, if_true]
        cases hloop : (runCriticLoop cfg.model stubs.timestamp cfg.max_revisions
            stubs.critic stubs.reviseOut
            (buildReport cfg.model stubs.timestamp topic
              (researchInParallel (parseSubtopics sd) stubs.research order).1 d)).1 with
        | ok final =>
          intro ev hev
          simp only [List.mem_cons, List.mem_append, List.mem_singleton,
            List.not_mem_nil, or_false, false_or, or_assoc] at hev
          rcases hev with rfl | rfl | h | rfl | h | rfl
          · norm_num
          · norm_num
          · exact hresearch ev h
          · norm_num
          · exact hloopB _ ev h
          · norm_num
        | error e =>
          intro ev hev
          simp only [List.mem_cons, List.mem_append, List.mem_singleton,
            List.not_mem_nil, or_false, false_or, or_assoc] at hev
          rcases hev with rfl | rfl | h | rfl | h
          · norm_num
          · norm_num
          · exact hresearch ev h
          · norm_num
          · exact hloopB _ ev h
      · simp only [hcrit, Bool.false_eq_true, if_false]
        intro ev hev
        simp only [List.mem_cons, List.mem_append, List.mem_singleton,
          List.not_mem_nil, or_false, false_or, or_assoc] at hev
        rcases hev with rfl | rfl | h | rfl | rfl
        · norm_num
        · norm_num
        · exact hresearch ev h
        · norm_num
        · norm_num

theorem c6_progress_bounds_amended_witness :
    (c6Stubs.split = LLMOutput.valid c6Sd ∧
      ([0, 1] : List Nat).length ≤ (parseSubtopics c6Sd).length) ∧
    (0 ≤ ((1 : ℚ)/10, "Analyzing topic and generating subtopics...").1 ∧
      ((1 : ℚ)/10, "Analyzing topic and generating subtopics...").1 ≤ 1) :=
  ⟨⟨rfl, by decide⟩,
   c6_progress_bounds_amended c6Cfg c6Stubs [0, 1] "t" "Technical" "Neutral"
     c6Sd rfl (by decide) _ (List.mem_cons_self _ _)⟩
